import Mathlib

/-!
# Verification of the Splide `Pagination` component

A shallow embedding of `src/js/components/Pagination/Pagination.ts`.

The component keeps a list of pagination items (an `li` wrapping a
`button`, tagged with its page number) and an optional `ul` list element.
Everything the component reads from its collaborators (`Splide`,
`Controller`, `Slides`, `options`, `Direction.resolve`) is collected in an
`Env` record, and DOM side effects that leave the component (event
emissions, `Controller.go` calls, focus moves, listener unbinding and list
removal) are recorded as an explicit list of `Eff` values.

DOM elements are modelled by the attributes and classes the component
touches; utility helpers from `src/js/utils` (`addClass`, `removeClass`,
`setAttribute`, `format`, `ceil`) are modelled with their standard DOM
wrapper semantics, since only `Pagination.ts` is under review.
-/

namespace SplidePagination

/-- The `CLASS_ACTIVE` constant from `constants/classes` (value `is-active`). -/
def CLASS_ACTIVE : String := "is-active"

/-- A `button` element, restricted to the attributes and classes the
component reads or writes.  `typ` is the `type` attribute; an attribute
modelled as `none` is absent from the element. -/
structure Button where
  classes : List String
  role : Option String
  typ : Option String
  ariaControls : Option String
  ariaLabel : Option String
  ariaSelected : Option String
  tabIndex : Option String
  deriving Repr, DecidableEq

/-- An `li` element: the component only sets its `role`. -/
structure LiElem where
  role : Option String
  deriving Repr, DecidableEq

/-- The `ul` pagination list element. -/
structure ListElem where
  classes : List String
  role : Option String
  ariaLabel : Option String
  deriving Repr, DecidableEq

/-- The `PaginationItem` record `{ li, button, page }`. -/
structure PageItem where
  li : LiElem
  button : Button
  page : Nat
  deriving Repr, DecidableEq

/-- The component state: the `items` array and the `list` variable
(`none` models the initial `undefined` and the `null` set by `destroy`). -/
structure PagState where
  items : List PageItem
  list : Option ListElem
  deriving Repr, DecidableEq

/-- A snapshot of everything the component reads from its collaborators:
`options` (`pagination`, `perPage`, `classes`, `i18n`), `Slides.isEnough`,
`Splide.length` and `Splide.index`, `Controller` (`hasFocus`, `getIndex`,
`toPage`), `Slides.getIn(i)` reduced to the slide ids it yields, and
`Direction.resolve` on key names.  `prevIndex` is `getIndex(true)` and
`currIndex` is `getIndex()`. -/
structure Env where
  pagination : Bool
  isEnough : Bool
  length : Nat
  hasFocus : Bool
  perPage : Nat
  toPage : Int → Int
  prevIndex : Int
  currIndex : Int
  splideIndex : Int
  i18nSelect : String
  i18nPageX : String
  i18nSlideX : String
  classesPagination : String
  classesPage : String
  getInIds : Nat → List String
  resolve : String → String

/-- Side effects leaving the component: the two emitted events, calls of
`Controller.go` (with its optional second argument), focusing a button,
preventing an event default, unbinding a button's listeners and removing
the list element from the DOM. -/
inductive Eff where
  | emitMounted (ls : Option ListElem) (items : List PageItem) (active : Option PageItem)
  | emitUpdated (ls : Option ListElem) (items : List PageItem) (prev curr : Option PageItem)
  | go (cmd : String) (useIndex : Option Bool)
  | focusBtn (b : Button)
  | prevent
  | unbindButton (page : Nat)
  | removeList
  deriving Repr, DecidableEq

/-- `classList.add`: appends the token unless already present. -/
def addClass (cs : List String) (c : String) : List String :=
  if cs.contains c then cs else cs ++ [c]

/-- `classList.remove`: drops every occurrence of the token. -/
def removeClass (cs : List String) (c : String) : List String :=
  cs.filter (fun x => x != c)

/-- `Math.ceil(a / b)` on naturals (for `b > 0`). -/
def ceilDiv (a b : Nat) : Nat := (a + b - 1) / b

/-- The `format` util applied to a single number: replaces `%s` by the
number (the i18n templates used here contain one `%s`). -/
def formatChars (n : Nat) : List Char → List Char
  | [] => []
  | '%' :: 's' :: rest => (toString n).data ++ formatChars n rest
  | c :: rest => c :: formatChars n rest

/-- `format( text, n )` from the utils. -/
def format (text : String) (n : Nat) : String :=
  String.mk (formatChars n text.data)

/-- JavaScript array indexing `items[ p ]` for an integer index: `some`
exactly when `0 ≤ p < items.length`, otherwise `undefined` (`none`). -/
def itemAt (items : List PageItem) (p : Int) : Option PageItem :=
  if 0 ≤ p then items[p.toNat]? else none

/-- `getAt( index )`: `items[ Controller.toPage( index ) ]`. -/
def getAt (env : Env) (s : PagState) (index : Int) : Option PageItem :=
  itemAt s.items (env.toPage index)

/-- The three writes `update` performs on the previous button:
`removeClass( button, CLASS_ACTIVE )`, `removeAttribute( button,
ARIA_SELECTED )`, `setAttribute( button, TAB_INDEX, -1 )`. -/
def clearButton (b : Button) : Button :=
  { b with classes := removeClass b.classes CLASS_ACTIVE
         , ariaSelected := none
         , tabIndex := some "-1" }

/-- The three writes `update` performs on the current button:
`addClass( button, CLASS_ACTIVE )`, `setAttribute( button, ARIA_SELECTED,
true )`, `setAttribute( button, TAB_INDEX, '' )`. -/
def activateButton (b : Button) : Button :=
  { b with classes := addClass b.classes CLASS_ACTIVE
         , ariaSelected := some "true"
         , tabIndex := some "" }

/-- Mutating the button of `items[ p ]` in place (a no-op when the index
is out of range, mirroring the `if ( prev ) / if ( curr )` guards). -/
def modifyItem (f : Button → Button) (p : Int) (items : List PageItem) : List PageItem :=
  if 0 ≤ p then List.modify (fun it => { it with button := f it.button }) p.toNat items
  else items

/-- `update()`: fetches the previous and current items through `getAt`,
clears the previous button, activates the current one, and emits
`EVENT_PAGINATION_UPDATED` with `{ list, items }` and the two (possibly
`undefined`) items. -/
def update (env : Env) (s : PagState) : PagState × List Eff :=
  let prevP := env.toPage env.prevIndex
  let currP := env.toPage env.currIndex
  let items1 := if (itemAt s.items prevP).isSome then modifyItem clearButton prevP s.items
                else s.items
  let items2 := if (itemAt items1 currP).isSome then modifyItem activateButton currP items1
                else items1
  ({ items := items2, list := s.list },
   [Eff.emitUpdated s.list items2 (itemAt items2 prevP) (itemAt items2 currP)])

/-- One pagination item as built by the loop body of `createPagination`:
`li` with role `none`; `button` with the configured page class, type
`button`, role `tab`, `aria-controls` from `Slides.getIn( i )`,
`aria-label` from the i18n template, and tab index `-1`. -/
def mkItem (env : Env) (i : Nat) : PageItem :=
  { li := { role := some "none" }
  , button := { classes := [env.classesPage]
              , role := some "tab"
              , typ := some "button"
              , ariaControls := some (String.intercalate " " (env.getInIds i))
              , ariaLabel := some (format
                  (if !env.hasFocus && env.perPage > 1 then env.i18nPageX else env.i18nSlideX)
                  (i + 1))
              , ariaSelected := none
              , tabIndex := some "-1" }
  , page := i }

/-- `createPagination()`: builds the `ul` (role `tablist`, labelled by
`i18n.select`) and pushes `max` fresh items onto `items`, where `max` is
`Splide.length` under `hasFocus()` and `ceil( length / perPage )`
otherwise. -/
def createPagination (env : Env) (s : PagState) : PagState :=
  let maxPages := if env.hasFocus then env.length else ceilDiv env.length env.perPage
  { items := s.items ++ (List.range maxPages).map (mkItem env)
  , list := some { classes := [env.classesPagination]
                 , role := some "tablist"
                 , ariaLabel := some env.i18nSelect } }

/-- `destroy()`: when a list exists, removes it, unbinds every button's
listeners, empties `items` and nulls `list`; otherwise does nothing. -/
def destroy (s : PagState) : PagState × List Eff :=
  match s.list with
  | some _ => ({ items := [], list := none },
               Eff.removeList :: s.items.map (fun it => Eff.unbindButton it.page))
  | none => (s, [])

/-- `init()`: destroys any existing pagination, then, when
`options.pagination` is truthy and `Slides.isEnough()`, creates a new one,
emits `EVENT_PAGINATION_MOUNTED` with `getAt( Splide.index )`, and runs
`update()`. -/
def init (env : Env) (s : PagState) : PagState × List Eff :=
  let d := destroy s
  if env.pagination && env.isEnough then
    let s2 := createPagination env d.1
    let u := update env s2
    (u.1, d.2 ++ [Eff.emitMounted s2.list s2.items (getAt env s2 env.splideIndex)] ++ u.2)
  else d

/-- `mount()`: runs `init` and registers `init` on updated/refresh and
`update` on move/scrolled events; state-wise it is `init`. -/
def mount (env : Env) (s : PagState) : PagState × List Eff :=
  init env s

/-- `onClick( page )`: `go( '>page', true )`. -/
def onClick (page : Nat) (s : PagState) : PagState × List Eff :=
  (s, [Eff.go (">" ++ toString page) (some true)])

/-- `onKeydown( page, e )`, taking the already-normalized key string of
the event (`normalizeKey( e )`).  Mirrors the source: `nextPage` starts at
`-1`; a resolved ArrowRight pre-increments `page`, a resolved ArrowLeft
pre-decrements it; when `items[ nextPage ]` exists the code focuses that
button, calls `go` with the possibly mutated `page`, and prevents the
event default. -/
def onKeydown (env : Env) (page : Nat) (key : String) (s : PagState) : PagState × List Eff :=
  let n : Int := s.items.length
  let pg : Int := page
  let res : Int × Int :=
    if key = env.resolve "ArrowRight" then ((pg + 1) % n, pg + 1)
    else if key = env.resolve "ArrowLeft" then ((pg - 1 + n) % n, pg - 1)
    else if key = "Home" then (0, pg)
    else if key = "End" then (n - 1, pg)
    else (-1, pg)
  match itemAt s.items res.1 with
  | some item => (s, [Eff.focusBtn item.button, Eff.go (">" ++ toString res.2) none, Eff.prevent])
  | none => (s, [])

/-- The component's state before `mount`: no items, no list. -/
def initialState : PagState := { items := [], list := none }

/-- Replacing a fetched item's button (the effect, on the `items` array, of
mutating `item.button` in place). -/
def btnMap (f : Button → Button) (it : PageItem) : PageItem :=
  { it with button := f it.button }

/-- The per-position effect of one `update()` call with previous page
`prevP` and current page `currP` on the item at position `q`. -/
def updButton (prevP currP q : Int) (it : PageItem) : PageItem :=
  let it1 := if q = prevP then btnMap clearButton it else it
  if q = currP then btnMap activateButton it1 else it1

/-- A button carries the active class. -/
def isActive (b : Button) : Bool := b.classes.contains CLASS_ACTIVE

/-- A button is in one of the two states `update` produces: active with
`aria-selected` `true` and an empty tab index, or inactive with no
`aria-selected` and tab index `-1`. -/
def goodButton (b : Button) : Bool :=
  (isActive b && (b.ariaSelected == some "true") && (b.tabIndex == some ""))
  || (!isActive b && (b.ariaSelected == none) && (b.tabIndex == some "-1"))

/-- The roving-tabindex invariant: at most one active button, and every
button is either the active one (selected, empty tab index) or inactive
(unselected, tab index `-1`). -/
def rovingInv (s : PagState) : Prop :=
  (s.items.filter fun it => isActive it.button).length ≤ 1
  ∧ ∀ it ∈ s.items, goodButton it.button = true

/-- Basic well-formedness: a destroyed (or never created) pagination has
no items. -/
def wf (s : PagState) : Prop := s.list = none → s.items = []

/-- Sanity of the `Controller` indices fed to one `update` call: any
currently active item sits at the current or previous page (in a live
carousel `getIndex(true)` is the index `update` last activated). -/
def updateConsistentB (env : Env) (s : PagState) : Bool :=
  (List.range s.items.length).all fun j =>
    match s.items[j]? with
    | some it => !(isActive it.button)
        || ((j : Int) == env.toPage env.currIndex)
        || ((j : Int) == env.toPage env.prevIndex)
    | none => true

/-- The state-changing operations of the component's lifecycle: `mount`,
`init` (re-run on updated/refresh events), `update` (run on move/scrolled
events) and `destroy`, each with the collaborator snapshot it observes. -/
inductive Op where
  | mount (env : Env)
  | init (env : Env)
  | update (env : Env)
  | destroy

/-- One lifecycle step on the component state. -/
def step (s : PagState) : Op → PagState
  | Op.mount env => (mount env s).1
  | Op.init env => (init env s).1
  | Op.update env => (update env s).1
  | Op.destroy => (destroy s).1

/-- Running a sequence of lifecycle operations. -/
def run (s : PagState) : List Op → PagState
  | [] => s
  | op :: ops => run (step s op) ops

/-- Environment sanity for one operation: an `update` sees consistent
controller indices, and a created pagination's page class is not the
active class. -/
def opOk (s : PagState) : Op → Bool
  | Op.mount env => env.classesPage != CLASS_ACTIVE
  | Op.init env => env.classesPage != CLASS_ACTIVE
  | Op.update env => updateConsistentB env s
  | Op.destroy => true

/-- Every operation of the trace is sane for the state it runs on. -/
def traceOk (s : PagState) : List Op → Bool
  | [] => true
  | op :: ops => opOk s op && traceOk (step s op) ops

/-- A concrete collaborator snapshot used by the witnesses: three slides,
focus mode (one page per slide), identity page mapping, moving from
page 0 to page 1. -/
def envW : Env :=
  { pagination := true, isEnough := true, length := 3, hasFocus := true, perPage := 1
  , toPage := fun i => i, prevIndex := 0, currIndex := 1, splideIndex := 1
  , i18nSelect := "Select a slide to show"
  , i18nPageX := "Go to page %s", i18nSlideX := "Go to slide %s"
  , classesPagination := "splide__pagination", classesPage := "splide__pagination__page"
  , getInIds := fun i => ["slide" ++ toString i], resolve := fun k => k }

/-- `envW` after one further move, from page 1 to page 2. -/
def envW2 : Env :=
  { envW with prevIndex := 1, currIndex := 2, splideIndex := 2 }

/-- The witnesses' concrete state: the pagination `envW` creates. -/
def sW : PagState := createPagination envW initialState

/-- A concrete lifecycle trace: mount, one further move, destroy. -/
def opsW : List Op := [Op.mount envW, Op.update envW2, Op.destroy]

/-- The induction invariant for lifecycle traces: the roving-tabindex
invariant together with basic well-formedness. -/
def InvOK (s : PagState) : Prop := rovingInv s ∧ wf s

end SplidePagination

namespace SplidePagination

/-! ## Characterization of array access and in-place button mutation -/

theorem itemAt_natCast (l : List PageItem) (j : Nat) : itemAt l (j : Int) = l[j]? := by
  simp [itemAt]

theorem itemAt_nil (p : Int) : itemAt [] p = none := by
  simp [itemAt]

theorem itemAt_isSome_iff (l : List PageItem) (p : Int) :
    (itemAt l p).isSome = true ↔ 0 ≤ p ∧ p.toNat < l.length := by
  unfold itemAt
  by_cases hp : 0 ≤ p
  · rw [if_pos hp, Option.isSome_iff_exists]
    constructor
    · rintro ⟨a, ha⟩
      exact ⟨hp, (List.getElem?_eq_some_iff.mp ha).1⟩
    · rintro ⟨-, h⟩
      exact ⟨l[p.toNat], List.getElem?_eq_getElem h⟩
  · simp [hp]

theorem length_modifyItem (f : Button → Button) (p : Int) (l : List PageItem) :
    (modifyItem f p l).length = l.length := by
  unfold modifyItem
  split
  · exact List.length_modify ..
  · rfl

theorem itemAt_modifyItem (f : Button → Button) (p q : Int) (l : List PageItem) :
    itemAt (modifyItem f p l) q = if q = p then (itemAt l q).map (btnMap f) else itemAt l q := by
  unfold modifyItem itemAt
  by_cases hp : 0 ≤ p
  · by_cases hq : 0 ≤ q
    · simp only [if_pos hp, if_pos hq, List.getElem?_modify]
      by_cases hpq : q = p
      · have ht : p.toNat = q.toNat := by omega
        rw [if_pos hpq, ht]
        cases l[q.toNat]? <;> simp [btnMap]
      · have ht : ¬ p.toNat = q.toNat := by omega
        rw [if_neg hpq]
        cases l[q.toNat]? <;> simp [ht]
    · have hqp : ¬ q = p := by omega
      simp [if_pos hp, if_neg hq, hqp]
  · by_cases hq : 0 ≤ q
    · have hqp : ¬ q = p := by omega
      simp [if_neg hp, if_pos hq, hqp]
    · by_cases hqp : q = p
      · simp [if_neg hp, if_neg hq, hqp]
      · simp [if_neg hp, if_neg hq, hqp]

theorem stage_itemAt (f : Button → Button) (p q : Int) (l : List PageItem) :
    itemAt (if (itemAt l p).isSome then modifyItem f p l else l) q =
      (itemAt l q).map (fun it => if q = p then btnMap f it else it) := by
  by_cases hg : (itemAt l p).isSome
  · rw [if_pos hg, itemAt_modifyItem]
    by_cases hpq : q = p
    · rw [if_pos hpq]
      cases itemAt l q <;> simp [hpq]
    · rw [if_neg hpq]
      cases itemAt l q <;> simp [hpq]
  · rw [if_neg hg]
    by_cases hpq : q = p
    · subst hpq
      have hnone : itemAt l q = none := by
        cases h : itemAt l q
        · rfl
        · exact absurd (by simp [h]) hg
      simp [hnone]
    · cases itemAt l q <;> simp [hpq]

/-! ## What one `update()` call does, position by position -/

theorem update_itemAt (env : Env) (s : PagState) (q : Int) :
    itemAt (update env s).1.items q =
      (itemAt s.items q).map
        (updButton (env.toPage env.prevIndex) (env.toPage env.currIndex) q) := by
  show itemAt
      (if (itemAt
            (if (itemAt s.items (env.toPage env.prevIndex)).isSome
             then modifyItem clearButton (env.toPage env.prevIndex) s.items else s.items)
            (env.toPage env.currIndex)).isSome
       then modifyItem activateButton (env.toPage env.currIndex)
            (if (itemAt s.items (env.toPage env.prevIndex)).isSome
             then modifyItem clearButton (env.toPage env.prevIndex) s.items else s.items)
       else (if (itemAt s.items (env.toPage env.prevIndex)).isSome
             then modifyItem clearButton (env.toPage env.prevIndex) s.items else s.items)) q
      = _
  rw [stage_itemAt, stage_itemAt, Option.map_map]
  cases itemAt s.items q <;> simp [updButton, Function.comp]

theorem update_items_length (env : Env) (s : PagState) :
    (update env s).1.items.length = s.items.length := by
  show (if _ then modifyItem activateButton _ _ else _).length = _
  split <;> split <;> simp [length_modifyItem]

theorem update_list (env : Env) (s : PagState) :
    (update env s).1.list = s.list := rfl

theorem update_getElem (env : Env) (s : PagState) (j : Nat) :
    (update env s).1.items[j]? =
      (s.items[j]?).map
        (updButton (env.toPage env.prevIndex) (env.toPage env.currIndex) (j : Int)) := by
  have h := update_itemAt env s (j : Int)
  rwa [itemAt_natCast, itemAt_natCast] at h

/-! ## The two button states `update` writes -/

theorem mem_addClass (cs : List String) (c : String) : c ∈ addClass cs c := by
  unfold addClass
  split
  · next h => simpa using h
  · simp

theorem not_mem_removeClass (cs : List String) (c : String) : c ∉ removeClass cs c := by
  simp [removeClass]

theorem isActive_activateButton (b : Button) : isActive (activateButton b) = true := by
  have h := mem_addClass b.classes CLASS_ACTIVE
  simp [isActive, activateButton]
  simpa using h

theorem isActive_clearButton (b : Button) : isActive (clearButton b) = false := by
  have h := not_mem_removeClass b.classes CLASS_ACTIVE
  simp [isActive, clearButton]
  simpa using h

theorem goodButton_activateButton (b : Button) : goodButton (activateButton b) = true := by
  have h1 : (activateButton b).ariaSelected = some "true" := rfl
  have h2 : (activateButton b).tabIndex = some "" := rfl
  simp [goodButton, isActive_activateButton, h1, h2]

theorem goodButton_clearButton (b : Button) : goodButton (clearButton b) = true := by
  have h1 : (clearButton b).ariaSelected = none := rfl
  have h2 : (clearButton b).tabIndex = some "-1" := rfl
  simp [goodButton, isActive_clearButton, h1, h2]

theorem updButton_button_curr (prevP currP : Int) (it : PageItem) :
    (updButton prevP currP currP it).button
      = activateButton (if currP = prevP then clearButton it.button else it.button) := by
  unfold updButton btnMap
  by_cases h : currP = prevP <;> simp [h]

theorem updButton_button_prev (prevP currP : Int) (hne : prevP ≠ currP) (it : PageItem) :
    (updButton prevP currP prevP it).button = clearButton it.button := by
  unfold updButton btnMap
  simp [hne]

theorem updButton_button_other (prevP currP q : Int) (hp : q ≠ prevP) (hc : q ≠ currP)
    (it : PageItem) : updButton prevP currP q it = it := by
  unfold updButton
  simp [hp, hc]

end SplidePagination

namespace SplidePagination

/-- C1: after every `update()` call, the item at page
`Controller.toPage(getIndex())` (when it exists) has the active class,
`aria-selected` set to `true` and an empty tab index, and the item at the
previous page `Controller.toPage(getIndex(true))` (when it exists and the
previous page differs from the current one) has the active class removed,
`aria-selected` removed and tab index `-1`; when the two pages coincide
the item ends up active, as the first conjunct states. -/
theorem update_active_state (env : Env) (s : PagState) :
    (∀ it, itemAt (update env s).1.items (env.toPage env.currIndex) = some it →
        isActive it.button = true ∧ it.button.ariaSelected = some "true"
        ∧ it.button.tabIndex = some "")
    ∧ (env.toPage env.prevIndex ≠ env.toPage env.currIndex →
        ∀ it, itemAt (update env s).1.items (env.toPage env.prevIndex) = some it →
        isActive it.button = false ∧ it.button.ariaSelected = none
        ∧ it.button.tabIndex = some "-1") := by
  constructor
  · intro it h
    rw [update_itemAt] at h
    cases h0 : itemAt s.items (env.toPage env.currIndex) with
    | none => rw [h0] at h; exact absurd h (by simp)
    | some it0 =>
      rw [h0] at h
      simp only [Option.map_some', Option.some.injEq] at h
      subst h
      rw [updButton_button_curr]
      exact ⟨isActive_activateButton _, rfl, rfl⟩
  · intro hne it h
    rw [update_itemAt] at h
    cases h0 : itemAt s.items (env.toPage env.prevIndex) with
    | none => rw [h0] at h; exact absurd h (by simp)
    | some it0 =>
      rw [h0] at h
      simp only [Option.map_some', Option.some.injEq] at h
      subst h
      rw [updButton_button_prev _ _ hne]
      exact ⟨isActive_clearButton _, rfl, rfl⟩

/-! ## Counting active buttons -/

theorem length_filter_le_one {α : Type} (p : α → Bool) :
    ∀ (l : List α) (c : Nat),
      (∀ j, (hj : j < l.length) → p (l.get ⟨j, hj⟩) = true → j = c) →
      (l.filter p).length ≤ 1
  | [], _, _ => by simp
  | x :: xs, c, h => by
    by_cases hx : p x = true
    · have hc : 0 = c := h 0 (by simp) hx
      have htail : xs.filter p = [] := by
        rw [List.filter_eq_nil_iff]
        intro a ha hpa
        obtain ⟨⟨n, hn⟩, rfl⟩ := List.mem_iff_get.mp ha
        have := h (n + 1) (by simpa using Nat.succ_lt_succ hn) hpa
        omega
      simp [List.filter_cons, hx, htail]
    · have hx2 : p x = false := by simpa using hx
      have hstep : (x :: xs).filter p = xs.filter p := by simp [List.filter_cons, hx2]
      rw [hstep]
      exact length_filter_le_one p xs (c - 1) (fun j hj hpj => by
        have := h (j + 1) (by simpa using Nat.succ_lt_succ hj) hpj
        omega)

theorem updateConsistent_spec (env : Env) (s : PagState)
    (hc : updateConsistentB env s = true) :
    ∀ j, (hj : j < s.items.length) → isActive (s.items.get ⟨j, hj⟩).button = true →
      (j : Int) = env.toPage env.currIndex ∨ (j : Int) = env.toPage env.prevIndex := by
  intro j hj ha
  have h1 := List.all_eq_true.mp hc j (List.mem_range.mpr hj)
  have hg : s.items[j]? = some (s.items.get ⟨j, hj⟩) := by
    rw [List.get_eq_getElem]
    exact List.getElem?_eq_getElem hj
  rw [hg] at h1
  simp only [ha, Bool.not_true, Bool.false_or, Bool.or_eq_true, beq_iff_eq] at h1
  exact h1

/-! ## Preservation of the roving-tabindex invariant -/

theorem rovingInv_update (env : Env) (s : PagState) (hs : rovingInv s)
    (hc : updateConsistentB env s = true) : rovingInv (update env s).1 := by
  obtain ⟨hcount, hgood⟩ := hs
  constructor
  · apply length_filter_le_one _ _ ((env.toPage env.currIndex).toNat)
    intro j hj ha
    have hjlen : j < s.items.length := by
      rw [← update_items_length env s]; exact hj
    have hchar := update_getElem env s j
    rw [show (update env s).1.items[j]? = some ((update env s).1.items.get ⟨j, hj⟩) from by
          rw [List.get_eq_getElem]; exact List.getElem?_eq_getElem hj,
        show s.items[j]? = some (s.items.get ⟨j, hjlen⟩) from by
          rw [List.get_eq_getElem]; exact List.getElem?_eq_getElem hjlen] at hchar
    simp only [Option.map_some', Option.some.injEq] at hchar
    by_cases h1 : (j : Int) = env.toPage env.currIndex
    · omega
    · by_cases h2 : (j : Int) = env.toPage env.prevIndex
      · exfalso
        rw [hchar] at ha
        rw [h2] at ha
        rw [updButton_button_prev _ _ (by rw [← h2]; exact h1) _] at ha
        rw [isActive_clearButton] at ha
        exact Bool.false_ne_true ha
      · exfalso
        rw [hchar, updButton_button_other _ _ _ h2 h1] at ha
        rcases updateConsistent_spec env s hc j hjlen ha with h | h
        · exact h1 h
        · exact h2 h
  · intro it hmem
    obtain ⟨⟨j, hj⟩, rfl⟩ := List.mem_iff_get.mp hmem
    have hjlen : j < s.items.length := by
      rw [← update_items_length env s]; exact hj
    have hchar := update_getElem env s j
    rw [show (update env s).1.items[j]? = some ((update env s).1.items.get ⟨j, hj⟩) from by
          rw [List.get_eq_getElem]; exact List.getElem?_eq_getElem hj,
        show s.items[j]? = some (s.items.get ⟨j, hjlen⟩) from by
          rw [List.get_eq_getElem]; exact List.getElem?_eq_getElem hjlen] at hchar
    simp only [Option.map_some', Option.some.injEq] at hchar
    rw [hchar]
    by_cases h1 : (j : Int) = env.toPage env.currIndex
    · rw [h1, updButton_button_curr]
      exact goodButton_activateButton _
    · by_cases h2 : (j : Int) = env.toPage env.prevIndex
      · rw [h2, updButton_button_prev _ _ (by rw [← h2]; exact h1) _]
        exact goodButton_clearButton _
      · rw [updButton_button_other _ _ _ h2 h1]
        exact hgood _ (List.get_mem s.items j hjlen)

theorem wf_update (env : Env) (s : PagState) (h : wf s) : wf (update env s).1 := by
  intro hl
  rw [update_list] at hl
  have hi : s.items = [] := h hl
  have hlen := update_items_length env s
  rw [hi] at hlen
  simpa using List.length_eq_zero.mp (by simpa using hlen)

theorem destroy_wf_state (s : PagState) (h : wf s) : (destroy s).1 = initialState := by
  cases s with
  | mk items ls =>
    cases ls with
    | some l => rfl
    | none =>
      have hi : items = [] := h rfl
      subst hi
      rfl

theorem destroy_state_cases (s : PagState) :
    (destroy s).1 = initialState ∨ (destroy s).1 = s := by
  cases s with
  | mk items ls =>
    cases ls with
    | some l => exact Or.inl rfl
    | none => exact Or.inr rfl

theorem init_state (env : Env) (s : PagState) (h : wf s) :
    (init env s).1 = if env.pagination && env.isEnough
      then (update env (createPagination env initialState)).1 else initialState := by
  unfold init
  by_cases hc : (env.pagination && env.isEnough) = true
  · simp only [hc, if_true, destroy_wf_state s h]
  · simp only [hc, if_false, destroy_wf_state s h, Bool.false_eq_true]

theorem createPagination_items (env : Env) :
    (createPagination env initialState).items
      = (List.range (if env.hasFocus then env.length
          else ceilDiv env.length env.perPage)).map (mkItem env) := by
  simp [createPagination, initialState]

theorem mkItem_not_active (env : Env) (h : env.classesPage ≠ CLASS_ACTIVE) (i : Nat) :
    isActive (mkItem env i).button = false := by
  simp [isActive, mkItem]
  intro hh
  exact absurd hh.symm h

theorem mkItem_good (env : Env) (h : env.classesPage ≠ CLASS_ACTIVE) (i : Nat) :
    goodButton (mkItem env i).button = true := by
  have h1 := mkItem_not_active env h i
  have h2 : (mkItem env i).button.ariaSelected = none := rfl
  have h3 : (mkItem env i).button.tabIndex = some "-1" := rfl
  simp [goodButton, h1, h2, h3]

theorem create_no_active (env : Env) (h : env.classesPage ≠ CLASS_ACTIVE) :
    ∀ it ∈ (createPagination env initialState).items, isActive it.button = false := by
  intro it hmem
  rw [createPagination_items] at hmem
  obtain ⟨i, _, rfl⟩ := List.mem_map.mp hmem
  exact mkItem_not_active env h i

theorem rovingInv_create (env : Env) (h : env.classesPage ≠ CLASS_ACTIVE) :
    rovingInv (createPagination env initialState) := by
  constructor
  · have hnil : ((createPagination env initialState).items.filter
        fun it => isActive it.button) = [] := by
      rw [List.filter_eq_nil_iff]
      intro a ha hpa
      rw [create_no_active env h a ha] at hpa
      exact Bool.false_ne_true hpa
    simp [hnil]
  · intro it hmem
    rw [createPagination_items] at hmem
    obtain ⟨i, _, rfl⟩ := List.mem_map.mp hmem
    exact mkItem_good env h i

theorem updateConsistentB_of_noActive (env : Env) (s : PagState)
    (h : ∀ it ∈ s.items, isActive it.button = false) :
    updateConsistentB env s = true := by
  unfold updateConsistentB
  rw [List.all_eq_true]
  intro j hj
  cases hg : s.items[j]? with
  | none => simp
  | some it =>
    have := h it (List.getElem?_mem hg)
    simp [this]

theorem invOK_initialState : InvOK initialState := by
  refine ⟨⟨?_, ?_⟩, ?_⟩
  · simp [initialState]
  · intro it hmem
    simp [initialState] at hmem
  · intro _
    rfl

theorem invOK_init (env : Env) (s : PagState) (h : InvOK s)
    (hcp : env.classesPage ≠ CLASS_ACTIVE) : InvOK (init env s).1 := by
  obtain ⟨hr, hw⟩ := h
  rw [init_state env s hw]
  by_cases hc : (env.pagination && env.isEnough) = true
  · rw [if_pos hc]
    constructor
    · exact rovingInv_update env _ (rovingInv_create env hcp)
        (updateConsistentB_of_noActive env _ (create_no_active env hcp))
    · intro hl
      rw [update_list] at hl
      simp [createPagination] at hl
  · rw [if_neg hc]
    exact invOK_initialState

theorem invOK_step (s : PagState) (op : Op) (h : InvOK s) (hop : opOk s op = true) :
    InvOK (step s op) := by
  cases op with
  | mount env =>
    exact invOK_init env s h (by simpa [opOk] using hop)
  | init env =>
    exact invOK_init env s h (by simpa [opOk] using hop)
  | update env =>
    exact ⟨rovingInv_update env s h.1 hop, wf_update env s h.2⟩
  | destroy =>
    rcases destroy_state_cases s with hd | hd
    · rw [show step s Op.destroy = (destroy s).1 from rfl, hd]
      exact invOK_initialState
    · rw [show step s Op.destroy = (destroy s).1 from rfl, hd]
      exact h

theorem invOK_run : ∀ (ops : List Op) (s : PagState),
    InvOK s → traceOk s ops = true → InvOK (run s ops)
  | [], _, h, _ => h
  | op :: ops, s, h, ht => by
    have h1 : opOk s op = true ∧ traceOk (step s op) ops = true := by
      simpa [traceOk] using ht
    exact invOK_run ops (step s op) (invOK_step s op h h1.1) h1.2

/-- C5: in every state reachable from the initial state by a sane sequence
of mount, init, update and destroy operations, at most one pagination
button carries the active class and `aria-selected`, and exactly the
buttons without them have tab index `-1`. -/
theorem roving_tabindex_invariant (ops : List Op)
    (ht : traceOk initialState ops = true) :
    rovingInv (run initialState ops) :=
  (invOK_run ops initialState invOK_initialState ht).1

/-- C5 witness: a concrete mount-move-destroy trace. -/
theorem roving_tabindex_invariant_witness :
    traceOk initialState opsW = true ∧ rovingInv (run initialState opsW) :=
  ⟨by decide, roving_tabindex_invariant opsW (by decide)⟩

end SplidePagination

namespace SplidePagination

/-! ## Creation-time structure -/

theorem create_getElem (env : Env) (i : Nat)
    (hi : i < (if env.hasFocus then env.length else ceilDiv env.length env.perPage)) :
    (createPagination env initialState).items[i]? = some (mkItem env i) := by
  rw [createPagination_items, List.getElem?_map, List.getElem?_range hi]
  rfl

/-- C2: with `options.pagination` truthy and enough slides, `init` builds
one `ul` with role `tablist` and `aria-label` `i18n.select` holding
exactly `max` items, where `max` is `Splide.length` under `hasFocus()` and
`ceil(length / perPage)` otherwise; the `i`-th item is an `li` with role
`none` whose button has role `tab`, type `button`, tab index `-1`, and
whose `page` field is `i`. -/
theorem createPagination_structure (env : Env) (hpp : 0 < env.perPage) :
    (createPagination env initialState).list
        = some { classes := [env.classesPagination], role := some "tablist"
               , ariaLabel := some env.i18nSelect }
    ∧ (createPagination env initialState).items.length
        = (if env.hasFocus then env.length else ceilDiv env.length env.perPage)
    ∧ (∀ i, i < (if env.hasFocus then env.length else ceilDiv env.length env.perPage) →
        ∃ it, (createPagination env initialState).items[i]? = some it
          ∧ it.li.role = some "none"
          ∧ it.button.role = some "tab"
          ∧ it.button.typ = some "button"
          ∧ it.button.tabIndex = some "-1"
          ∧ it.page = i)
    ∧ ((env.pagination && env.isEnough) = true →
        (init env initialState).1.list = (createPagination env initialState).list
        ∧ (init env initialState).1.items.length
            = (if env.hasFocus then env.length else ceilDiv env.length env.perPage)) := by
  refine ⟨rfl, ?_, ?_, ?_⟩
  · rw [createPagination_items]
    simp
  · intro i hi
    exact ⟨mkItem env i, create_getElem env i hi, rfl, rfl, rfl, rfl, rfl⟩
  · intro hc
    rw [init_state env initialState invOK_initialState.2, if_pos hc]
    constructor
    · rw [update_list]
    · rw [update_items_length]
      rw [createPagination_items]
      simp

/-- C2 witness: the concrete environment `envW` produces three items. -/
theorem createPagination_structure_witness :
    (createPagination envW initialState).items.length
      = (if envW.hasFocus then envW.length else ceilDiv envW.length envW.perPage) :=
  (createPagination_structure envW (by decide)).2.1

/-- C3: the click handler bound to the `i`-th created button (whose `page`
field is `i`) calls exactly `Controller.go` with the command `>i` and
second argument `true`, and leaves the pagination state unchanged. -/
theorem onClick_go_command (env : Env) (s : PagState) (i : Nat) (it : PageItem)
    (h : (createPagination env initialState).items[i]? = some it) :
    it.page = i ∧ onClick i s = (s, [Eff.go (">" ++ toString i) (some true)]) := by
  refine ⟨?_, rfl⟩
  rw [createPagination_items, List.getElem?_map] at h
  by_cases hi : i < (if env.hasFocus then env.length else ceilDiv env.length env.perPage)
  · rw [List.getElem?_range hi] at h
    simp only [Option.map_some', Option.some.injEq] at h
    rw [← h]
    rfl
  · rw [List.getElem?_eq_none (by simpa using Nat.le_of_not_lt hi)] at h
    simp at h

/-- C3 witness: the second button of the concrete pagination. -/
theorem onClick_go_command_witness :
    (mkItem envW 1).page = 1
    ∧ onClick 1 initialState = (initialState, [Eff.go (">" ++ toString 1) (some true)]) :=
  onClick_go_command envW initialState 1 (mkItem envW 1) (by decide)

/-! ## The frame of one update call -/

theorem updButton_li (prevP currP q : Int) (it : PageItem) :
    (updButton prevP currP q it).li = it.li := by
  unfold updButton btnMap
  split <;> split <;> rfl

theorem updButton_page (prevP currP q : Int) (it : PageItem) :
    (updButton prevP currP q it).page = it.page := by
  unfold updButton btnMap
  split <;> split <;> rfl

theorem updButton_button_frame (prevP currP q : Int) (it : PageItem) :
    (updButton prevP currP q it).button.role = it.button.role
    ∧ (updButton prevP currP q it).button.typ = it.button.typ
    ∧ (updButton prevP currP q it).button.ariaControls = it.button.ariaControls
    ∧ (updButton prevP currP q it).button.ariaLabel = it.button.ariaLabel := by
  unfold updButton btnMap activateButton clearButton
  split <;> split <;> exact ⟨rfl, rfl, rfl, rfl⟩

/-- C6: `update()` keeps the list element, the number of items, and every
item at a page other than the previous and current ones unchanged; on the
previous and current items it only touches the button's class list,
`aria-selected` and tab index (`li`, `page`, role, type, `aria-controls`
and `aria-label` are untouched); and its only outgoing effect is one
`EVENT_PAGINATION_UPDATED` emission. -/
theorem update_frame (env : Env) (s : PagState) :
    (update env s).1.list = s.list
    ∧ (update env s).1.items.length = s.items.length
    ∧ (∀ j : Nat, (j : Int) ≠ env.toPage env.prevIndex →
        (j : Int) ≠ env.toPage env.currIndex →
        (update env s).1.items[j]? = s.items[j]?)
    ∧ (∀ j : Nat, ∀ it it', s.items[j]? = some it →
        (update env s).1.items[j]? = some it' →
        it'.li = it.li ∧ it'.page = it.page
        ∧ it'.button.role = it.button.role
        ∧ it'.button.typ = it.button.typ
        ∧ it'.button.ariaControls = it.button.ariaControls
        ∧ it'.button.ariaLabel = it.button.ariaLabel)
    ∧ (update env s).2
        = [Eff.emitUpdated s.list (update env s).1.items
            (itemAt (update env s).1.items (env.toPage env.prevIndex))
            (itemAt (update env s).1.items (env.toPage env.currIndex))] := by
  refine ⟨update_list env s, update_items_length env s, ?_, ?_, rfl⟩
  · intro j hp hc
    rw [update_getElem]
    cases hg : s.items[j]? with
    | none => rfl
    | some it => rw [Option.map_some', updButton_button_other _ _ _ hp hc]
  · intro j it it' hpre hpost
    rw [update_getElem, hpre, Option.map_some', Option.some.injEq] at hpost
    rw [← hpost]
    exact ⟨updButton_li _ _ _ _, updButton_page _ _ _ _,
      (updButton_button_frame _ _ _ _).1, (updButton_button_frame _ _ _ _).2.1,
      (updButton_button_frame _ _ _ _).2.2.1, (updButton_button_frame _ _ _ _).2.2.2⟩

/-- C7: `init()` is idempotent on the component state: it always destroys
the existing pagination before creating a new one, so with the same
collaborator snapshot a second `init()` reproduces exactly the state of
the first — one list and one fresh set of items, never duplicates. -/
theorem init_idempotent (env : Env) (s : PagState) (h : wf s) :
    (init env (init env s).1).1 = (init env s).1 := by
  have h2 : wf (init env s).1 := by
    rw [init_state env s h]
    by_cases hc : (env.pagination && env.isEnough) = true
    · rw [if_pos hc]
      apply wf_update
      intro hl
      simp [createPagination] at hl
    · rw [if_neg hc]
      exact invOK_initialState.2
  rw [init_state env (init env s).1 h2, init_state env s h]

/-- C7 witness: idempotence at the concrete environment `envW`. -/
theorem init_idempotent_witness :
    (init envW (init envW initialState).1).1 = (init envW initialState).1 :=
  init_idempotent envW initialState (fun _ => rfl)

/-- C8: `getAt(index)` is `items[Controller.toPage(index)]` and never
fails: it yields an item exactly when the mapped page lies in
`[0, items.length)`, the item it yields is the member of `items` at that
page, and with no items (pagination never created) it yields `undefined`
for every index. -/
theorem getAt_total (env : Env) (s : PagState) (index : Int) :
    ((getAt env s index).isSome = true
        ↔ 0 ≤ env.toPage index ∧ (env.toPage index).toNat < s.items.length)
    ∧ (∀ it, getAt env s index = some it →
        it ∈ s.items ∧ s.items[(env.toPage index).toNat]? = some it)
    ∧ (s.items = [] → getAt env s index = none) := by
  refine ⟨itemAt_isSome_iff s.items (env.toPage index), ?_, ?_⟩
  · intro it h
    unfold getAt itemAt at h
    split at h
    · exact ⟨List.getElem?_mem h, h⟩
    · exact absurd h (by simp)
  · intro hnil
    show itemAt s.items (env.toPage index) = none
    rw [hnil]
    exact itemAt_nil _

/-- C9: `destroy()` fully resets the state — afterwards `items` is empty
and `list` is null, a second consecutive `destroy()` changes nothing and
emits nothing, and when a list existed the call removes it and unbinds
every button's listeners. -/
theorem destroy_idempotent_reset (s : PagState) (h : wf s) :
    (destroy s).1.items = [] ∧ (destroy s).1.list = none
    ∧ destroy (destroy s).1 = ((destroy s).1, [])
    ∧ (s.list.isSome = true →
        (destroy s).2 = Eff.removeList :: s.items.map fun it => Eff.unbindButton it.page) := by
  have hd := destroy_wf_state s h
  refine ⟨by rw [hd]; rfl, by rw [hd]; rfl, by rw [hd]; rfl, ?_⟩
  intro hl
  cases s with
  | mk items ls =>
    cases ls with
    | some l => rfl
    | none => simp at hl

/-- C9 witness: destroying the concrete created pagination. -/
theorem destroy_idempotent_reset_witness :
    (destroy sW).1.items = [] ∧ (destroy sW).1.list = none
    ∧ destroy (destroy sW).1 = ((destroy sW).1, [])
    ∧ (sW.list.isSome = true →
        (destroy sW).2 = Eff.removeList :: sW.items.map fun it => Eff.unbindButton it.page) :=
  destroy_idempotent_reset sW (fun hl => absurd hl (by decide))

/-- C10: every `update()` call emits `EVENT_PAGINATION_UPDATED` exactly
once, carrying the current list and items with the previous and current
items (each possibly `undefined`); with no pagination (no items) the call
changes no state and the event carries empty items and two `undefined`
items. -/
theorem update_always_emits (env : Env) (s : PagState) :
    (update env s).2
        = [Eff.emitUpdated s.list (update env s).1.items
            (itemAt (update env s).1.items (env.toPage env.prevIndex))
            (itemAt (update env s).1.items (env.toPage env.currIndex))]
    ∧ (s.items = [] →
        (update env s).1 = s
        ∧ (update env s).2 = [Eff.emitUpdated s.list [] none none]) := by
  refine ⟨rfl, ?_⟩
  intro hnil
  have hitems : (update env s).1.items = [] := by
    have := update_items_length env s
    rw [hnil] at this
    exact List.length_eq_zero.mp this
  constructor
  · cases s with
    | mk items ls =>
      simp only at hnil
      subst hnil
      have hl := update_list env ⟨[], ls⟩
      cases h2 : (update env ⟨[], ls⟩).1 with
      | mk items2 ls2 =>
        rw [h2] at hitems hl
        simp only at hitems hl
        rw [hitems, hl]
  · rw [show (update env s).2
        = [Eff.emitUpdated s.list (update env s).1.items
            (itemAt (update env s).1.items (env.toPage env.prevIndex))
            (itemAt (update env s).1.items (env.toPage env.currIndex))] from rfl,
      hitems, itemAt_nil, itemAt_nil]

end SplidePagination

namespace SplidePagination

/-! ## Keyboard handling -/

theorem onKeydown_match (env : Env) (p : Nat) (key : String) (s : PagState)
    (r1 r2 : Int)
    (hres : (if key = env.resolve "ArrowRight"
        then (((p : Int) + 1) % (s.items.length : Int), (p : Int) + 1)
      else if key = env.resolve "ArrowLeft"
        then (((p : Int) - 1 + s.items.length) % (s.items.length : Int), (p : Int) - 1)
      else if key = "Home" then ((0 : Int), (p : Int))
      else if key = "End" then ((s.items.length : Int) - 1, (p : Int))
      else ((-1 : Int), (p : Int))) = (r1, r2)) :
    onKeydown env p key s = (match itemAt s.items r1 with
      | some item => (s, [Eff.focusBtn item.button, Eff.go (">" ++ toString r2) none,
                          Eff.prevent])
      | none => (s, [])) := by
  unfold onKeydown
  simp only []
  rw [hres]

/-- C4 (amended): for a keydown on the button of page `p` with
`n = items.length > 0`, a resolved ArrowRight focuses the button at
`(p+1) mod n` and commands `go('>'+(p+1))`, a resolved ArrowLeft focuses
the button at `(p-1+n) mod n` and commands `go('>'+(p-1))`, Home focuses
button `0` and End button `n-1` while each commands `go('>'+p)` with the
unchanged page `p`; in each of these cases the event default is
prevented; any other key changes nothing.  (The page handed to
`Controller.go` is the handler's mutated `page` variable, which equals
the newly focused page only for non-wrapping arrow moves.) -/
theorem onKeydown_cases (env : Env) (s : PagState) (p : Nat) (key : String) :
    (key = env.resolve "ArrowRight" → 0 < s.items.length →
      ∃ it, itemAt s.items (((p : Int) + 1) % (s.items.length : Int)) = some it
        ∧ onKeydown env p key s
            = (s, [Eff.focusBtn it.button,
                   Eff.go (">" ++ toString ((p : Int) + 1)) none, Eff.prevent]))
    ∧ (key ≠ env.resolve "ArrowRight" → key = env.resolve "ArrowLeft" →
        0 < s.items.length →
      ∃ it, itemAt s.items (((p : Int) - 1 + s.items.length) % (s.items.length : Int))
              = some it
        ∧ onKeydown env p key s
            = (s, [Eff.focusBtn it.button,
                   Eff.go (">" ++ toString ((p : Int) - 1)) none, Eff.prevent]))
    ∧ (key ≠ env.resolve "ArrowRight" → key ≠ env.resolve "ArrowLeft" → key = "Home" →
        0 < s.items.length →
      ∃ it, itemAt s.items 0 = some it
        ∧ onKeydown env p key s
            = (s, [Eff.focusBtn it.button,
                   Eff.go (">" ++ toString (p : Int)) none, Eff.prevent]))
    ∧ (key ≠ env.resolve "ArrowRight" → key ≠ env.resolve "ArrowLeft" → key ≠ "Home" →
        key = "End" → 0 < s.items.length →
      ∃ it, itemAt s.items ((s.items.length : Int) - 1) = some it
        ∧ onKeydown env p key s
            = (s, [Eff.focusBtn it.button,
                   Eff.go (">" ++ toString (p : Int)) none, Eff.prevent]))
    ∧ (key ≠ env.resolve "ArrowRight" → key ≠ env.resolve "ArrowLeft" → key ≠ "Home" →
        key ≠ "End" → onKeydown env p key s = (s, [])) := by
  refine ⟨?_, ?_, ?_, ?_, ?_⟩
  · intro hk hn
    have hpos : (0 : Int) < (s.items.length : Int) := by exact_mod_cast hn
    have hsome : (itemAt s.items (((p : Int) + 1) % (s.items.length : Int))).isSome = true := by
      rw [itemAt_isSome_iff]
      have h0 := Int.emod_nonneg ((p : Int) + 1) (by omega : (s.items.length : Int) ≠ 0)
      have h1 := Int.emod_lt_of_pos ((p : Int) + 1) hpos
      exact ⟨h0, by omega⟩
    obtain ⟨it, hit⟩ := Option.isSome_iff_exists.mp hsome
    refine ⟨it, hit, ?_⟩
    rw [onKeydown_match env p key s _ _ (by rw [if_pos hk]), hit]
  · intro hk1 hk2 hn
    have hpos : (0 : Int) < (s.items.length : Int) := by exact_mod_cast hn
    have hsome : (itemAt s.items
        (((p : Int) - 1 + s.items.length) % (s.items.length : Int))).isSome = true := by
      rw [itemAt_isSome_iff]
      have h0 := Int.emod_nonneg ((p : Int) - 1 + s.items.length)
        (by omega : (s.items.length : Int) ≠ 0)
      have h1 := Int.emod_lt_of_pos ((p : Int) - 1 + s.items.length) hpos
      exact ⟨h0, by omega⟩
    obtain ⟨it, hit⟩ := Option.isSome_iff_exists.mp hsome
    refine ⟨it, hit, ?_⟩
    rw [onKeydown_match env p key s _ _ (by rw [if_neg hk1, if_pos hk2]), hit]
  · intro hk1 hk2 hk3 hn
    have hsome : (itemAt s.items 0).isSome = true := by
      rw [itemAt_isSome_iff]
      exact ⟨le_refl 0, by omega⟩
    obtain ⟨it, hit⟩ := Option.isSome_iff_exists.mp hsome
    refine ⟨it, hit, ?_⟩
    rw [onKeydown_match env p key s _ _ (by rw [if_neg hk1, if_neg hk2, if_pos hk3]), hit]
  · intro hk1 hk2 hk3 hk4 hn
    have hsome : (itemAt s.items ((s.items.length : Int) - 1)).isSome = true := by
      rw [itemAt_isSome_iff]
      exact ⟨by omega, by omega⟩
    obtain ⟨it, hit⟩ := Option.isSome_iff_exists.mp hsome
    refine ⟨it, hit, ?_⟩
    rw [onKeydown_match env p key s _ _
      (by rw [if_neg hk1, if_neg hk2, if_neg hk3, if_pos hk4]), hit]
  · intro hk1 hk2 hk3 hk4
    have hnone : itemAt s.items (-1) = none := by
      unfold itemAt
      rw [if_neg (by omega)]
    rw [onKeydown_match env p key s _ _
      (by rw [if_neg hk1, if_neg hk2, if_neg hk3, if_neg hk4]), hnone]

/-- C4 counterexample: pressing Home on the button of page 1 of the
concrete three-item pagination focuses the button of page 0 but commands
`go('>1')` — the original page, not the newly focused page 0 (which the
claim, read with C3's command format, would demand as `go('>0')`). -/
theorem onKeydown_home_counterexample :
    (onKeydown envW 1 "Home" sW).2
      = [Eff.focusBtn (mkItem envW 0).button, Eff.go ">1" none, Eff.prevent]
    ∧ (mkItem envW 0).page = 0
    ∧ Eff.go ">1" none ≠ Eff.go ">0" none := by
  refine ⟨by decide, rfl, by decide⟩

/-- C4 witness: a non-wrapping ArrowRight on the concrete pagination. -/
theorem onKeydown_cases_witness :
    ∃ it, itemAt sW.items (((1 : Int) + 1) % (sW.items.length : Int)) = some it
      ∧ onKeydown envW 1 "ArrowRight" sW
          = (sW, [Eff.focusBtn it.button,
                 Eff.go (">" ++ toString ((1 : Int) + 1)) none, Eff.prevent]) :=
  (onKeydown_cases envW sW 1 "ArrowRight").1 rfl (by decide)

end SplidePagination
